import Mathlib

/-!
Verification of the OpenFGA HTTP client core (`client/fga_client.py` and
`client/sync_fga_database.py`): the pagination engine (`FGAClient._paginate`),
the dedup/batch writer (`dedupe`, `batcherize`, `write_tuples`,
`delete_tuples`), the identity resolver (`_get_store_id`, `_get_model_id`),
the seeding reconciler (`ensure_seed`), the `type:id` string handling of
`list_users` / `list_objects`, and `is_allowed`.

Python `dict[str, str]` values are modelled as insertion-ordered association
lists (`List (String × String)`), matching the observable iteration order of
Python dicts.  Python `Optional[str]` is `Option String`, and Python
truthiness of such a value (`if store_id:`, `if not continuation_token:`) is
`pyTruthy`.  Raising an exception is modelled with `Except`.  The HTTP server
is modelled as the list of responses it hands back, one per request issued.
-/

/-- Python `method.upper()` for the ASCII method names used here, modelled
with structural recursion so that it evaluates inside the kernel. -/
def pyUpper (s : String) : String :=
  String.mk (s.data.map Char.toUpper)

/-- Truthiness of a Python `Optional[str]`: `None` and `""` are falsy. -/
def pyTruthy : Option String → Bool
  | none => false
  | some s => s != ""

/-- `d[k] = v` on a Python dict: update in place if the key exists
(keeping its position), otherwise append the new entry. -/
def dictSet : List (String × String) → String → String → List (String × String)
  | [], k, v => [(k, v)]
  | (k', v') :: rest, k, v =>
      if k' = k then (k, v) :: rest else (k', v') :: dictSet rest k v

/-- `d.get(k)` on a Python dict. -/
def dictGet : List (String × String) → String → Option String
  | [], _ => none
  | (k', v') :: rest, k => if k' = k then some v' else dictGet rest k

/-- Worker for `dedupe` (fga_client.py lines 27-35): `seen` is the set of
identifiers `tuple(item.items())` seen so far.  Since a Python dict iterates
its items in insertion order, the identifier of an item is the association
list itself, compared as an ordered sequence. -/
def dedupeGo {α : Type} [DecidableEq α] (seen : List α) : List α → List α
  | [] => []
  | x :: xs => if x ∈ seen then dedupeGo seen xs else x :: dedupeGo (x :: seen) xs

/-- `dedupe` from fga_client.py lines 27-35. -/
def dedupe {α : Type} [DecidableEq α] (lst : List α) : List α :=
  dedupeGo [] lst

/-- Index of the first occurrence of `x` in `l` (length of `l` when absent);
used to state first-occurrence ordering. -/
def firstIdx {α : Type} [DecidableEq α] : List α → α → Nat
  | [], _ => 0
  | a :: as, x => if a = x then 0 else firstIdx as x + 1

/-- Structural equality of two TupleKey dicts as described by the spec:
the same keys map to the same values, regardless of field insertion order. -/
def dictEqb (a b : List (String × String)) : Bool :=
  ((a.map Prod.fst).all fun k => dictGet a k == dictGet b k) &&
  ((b.map Prod.fst).all fun k => dictGet a k == dictGet b k)

/-- `batcherize` from fga_client.py lines 22-24: successive slices
`lst[i : i + n]` for `i = 0, n, 2n, ...`.  For a nonempty list the first
chunk is `take n` and the rest is `batcherize` of `drop n`; `xs.drop (n - 1)`
is `(x :: xs).drop n` for `n ≥ 1` (the only use has `n = 100`). -/
def batcherize {α : Type} (n : Nat) : List α → List (List α)
  | [] => []
  | x :: xs => (x :: xs).take n :: batcherize n (xs.drop (n - 1))
termination_by l => l.length
decreasing_by simp [List.length_drop]; omega

/-- `httpx.Response.is_success`: status in `2xx`.  `_raise_for_status`
(fga_client.py lines 13-19) raises exactly when this is false. -/
def isSuccess (s : Nat) : Bool := 200 ≤ s && s < 300

/-- The message of the `RuntimeError` raised by `_raise_for_status`
(fga_client.py lines 17-19):
`f"FGA API request failed: {status}\n{json.dumps(body, indent=2)}"`.
The serialized response body is modelled by the `raw` text carried by the
response. -/
def errMsg (status : Nat) (raw : String) : String :=
  "FGA API request failed: " ++ toString status ++ "\n" ++ raw

/-- `t` occurs as a contiguous substring of `s` (stated on the underlying
character lists). -/
abbrev strContains (s t : String) : Prop := t.data <:+: s.data

/-- One mock HTTP response consumed by the pagination engine: its status
code, the item collection extracted via the response key
(`data.get(response_key)`), the continuation token (`data.get("continuation_token")`,
where a missing token is `none`), and the raw body text used in error
messages. -/
structure Response where
  status : Nat
  items : List String
  token : Option String
  raw : String
deriving Repr, DecidableEq

/-- One HTTP request issued by the pagination engine: the endpoint, the
query parameters and the JSON body it was sent with. -/
structure Request where
  endpoint : String
  params : List (String × String)
  body : Option (List (String × String))
deriving Repr, DecidableEq

/-- Result of a paginated call: success with the accumulated items, the
final state of the caller's body dict and the requests issued; or the
`RuntimeError` of `_raise_for_status`; or `exhausted` when the engine asked
for one more page than the mock server has (carrying all requests issued,
the last one unanswered). -/
inductive PaginateOutcome where
  | ok (results : List String) (finalBody : Option (List (String × String)))
      (requests : List Request)
  | httpError (message : String)
  | exhausted (requests : List Request)
deriving Repr, DecidableEq

/-- The token-injection block at the top of the `_paginate` loop
(fga_client.py lines 84-91): copy `params`; if a truthy continuation token is
at hand, put it into the query parameters for GET requests, otherwise into
the JSON body (creating the body dict if the caller passed none).  Returns
the `(request_params, body)` pair used for the next request. -/
def injectCursor (method : String) (params : List (String × String))
    (body : Option (List (String × String))) :
    Option String → List (String × String) × Option (List (String × String))
  | some t =>
      if t ≠ "" then
        if pyUpper method = "GET" then
          (dictSet params "continuation_token" t, body)
        else
          (params, some (dictSet (body.getD []) "continuation_token" t))
      else (params, body)
  | none => (params, body)

/-- The `while True` loop of `FGAClient._paginate` (fga_client.py lines
83-108), one recursive step per iteration: build the request from the
current token, issue it against the next mock response, abort with the
`_raise_for_status` error on a non-2xx status, otherwise extend the
accumulator with the page's items and continue while the returned token is
truthy. -/
def paginateGo (method endpoint : String) (params : List (String × String)) :
    Option (List (String × String)) → Option String → List String →
    List Request → List Response → PaginateOutcome
  | body, tok, _acc, reqs, [] =>
      PaginateOutcome.exhausted (reqs ++
        [⟨endpoint, (injectCursor method params body tok).1,
          (injectCursor method params body tok).2⟩])
  | body, tok, acc, reqs, r :: rest =>
      if isSuccess r.status then
        if pyTruthy r.token then
          paginateGo method endpoint params (injectCursor method params body tok).2
            r.token (acc ++ r.items)
            (reqs ++ [⟨endpoint, (injectCursor method params body tok).1,
              (injectCursor method params body tok).2⟩]) rest
        else
          PaginateOutcome.ok (acc ++ r.items) (injectCursor method params body tok).2
            (reqs ++ [⟨endpoint, (injectCursor method params body tok).1,
              (injectCursor method params body tok).2⟩])
      else PaginateOutcome.httpError (errMsg r.status r.raw)

/-- `FGAClient._paginate` (fga_client.py lines 72-110) run against a mock
server that answers the i-th request with the i-th element of `pages`. -/
def paginate (method endpoint : String) (params : List (String × String))
    (body : Option (List (String × String))) (pages : List Response) :
    PaginateOutcome :=
  paginateGo method endpoint params body none [] [] pages

/-- Where a request carries its continuation token: in the query parameters
for GET requests, in the JSON body otherwise. -/
def reqCursor (method : String) (r : Request) : Option String :=
  if pyUpper method = "GET" then dictGet r.params "continuation_token"
  else dictGet (r.body.getD []) "continuation_token"

/-- `FGAClient._get_store_id` (fga_client.py lines 60-64):
`store_id = store_id or self.store_id; if not store_id: raise ValueError`. -/
def getStoreId (arg inst : Option String) : Except String String :=
  match (if pyTruthy arg then arg else inst) with
  | none => Except.error "store_id must be provided"
  | some s => if s = "" then Except.error "store_id must be provided" else Except.ok s

/-- `FGAClient._get_model_id` (fga_client.py lines 66-70). -/
def getModelId (arg inst : Option String) : Except String String :=
  match (if pyTruthy arg then arg else inst) with
  | none => Except.error "model_id must be provided"
  | some s => if s = "" then Except.error "model_id must be provided" else Except.ok s

/-- Body of one `POST /stores/{id}/write` request: either a `writes` block
with its `on_duplicate` flag or a `deletes` block with its `on_missing`
flag, each carrying the batch of tuple keys. -/
inductive WriteBody where
  | writes (tupleKeys : List (List (String × String))) (onDuplicate : String)
  | deletes (tupleKeys : List (List (String × String))) (onMissing : String)
deriving Repr, DecidableEq

/-- One tuple-write/delete HTTP request as built by `write_tuples` /
`delete_tuples`. -/
structure TupleRequest where
  storeId : String
  body : WriteBody
  modelId : String
deriving Repr, DecidableEq

/-- `FGAClient.write_tuples` (fga_client.py lines 224-247): resolve the
store and model ids, dedupe, batch by 100, and issue one request per batch,
in batch order.  The returned list is the sequence of requests issued. -/
def writeTuples (tuples : List (List (String × String)))
    (storeId instStoreId modelId instModelId : Option String)
    (ignoreDuplicates : Bool) : Except String (List TupleRequest) := do
  let sid ← getStoreId storeId instStoreId
  let mid ← getModelId modelId instModelId
  let deduped := dedupe tuples
  Except.ok ((batcherize 100 deduped).map fun batch =>
    ⟨sid, WriteBody.writes batch (if ignoreDuplicates then "ignore" else "error"), mid⟩)

/-- `FGAClient.delete_tuples` (fga_client.py lines 274-297). -/
def deleteTuples (tuples : List (List (String × String)))
    (storeId instStoreId modelId instModelId : Option String)
    (ignoreMissing : Bool) : Except String (List TupleRequest) := do
  let sid ← getStoreId storeId instStoreId
  let mid ← getModelId modelId instModelId
  let deduped := dedupe tuples
  Except.ok ((batcherize 100 deduped).map fun batch =>
    ⟨sid, WriteBody.deletes batch (if ignoreMissing then "ignore" else "error"), mid⟩)

/-- One element of the list returned by `read_tuples`: a tuple object whose
`"key"` field holds the TupleKey dict. -/
structure ReadTuple where
  key : List (String × String)
deriving Repr, DecidableEq

/-- One observable step of `ensure_seed`: the paginated read of the store's
tuples, or one tuple-write/delete request. -/
inductive SeedStep where
  | read (storeId : String)
  | tupleReq (r : TupleRequest)
deriving Repr, DecidableEq

/-- `ensure_seed` (sync_fga_database.py lines 34-37): read all current
tuples, delete the keys just read (`ignore_missing` defaulting to `True`),
then write the desired seed tuples with `ignore_duplicates=True`.  The
paginated read is modelled by the tuple list `readResult` the server returns
for it; the value is the ordered trace of operations performed. -/
def ensureSeed (instStoreId instModelId : Option String)
    (readResult : List ReadTuple) (tuples : List (List (String × String))) :
    Except String (List SeedStep) := do
  let sid ← getStoreId none instStoreId
  let dels ← deleteTuples (readResult.map fun t => t.key) none instStoreId
    none instModelId true
  let wrs ← writeTuples tuples none instStoreId none instModelId true
  Except.ok (SeedStep.read sid :: (dels.map SeedStep.tupleReq ++ wrs.map SeedStep.tupleReq))

/-- Worker for Python `s.split(":")`: cut the remaining characters at every
colon, `acc` being the reversed characters of the current piece. -/
def splitOnColonAux : List Char → List Char → List String
  | [], acc => [String.mk acc.reverse]
  | c :: cs, acc =>
      if c = ':' then String.mk acc.reverse :: splitOnColonAux cs []
      else splitOnColonAux cs (c :: acc)

/-- Python `s.split(":")`: split at every colon, keeping empty pieces. -/
def pySplitColon (s : String) : List String :=
  splitOnColonAux s.data []

/-- Worker for Python `s.split(":", 1)`. -/
def splitFirstColonAux : List Char → List Char → List String
  | [], acc => [String.mk acc.reverse]
  | c :: cs, acc =>
      if c = ':' then [String.mk acc.reverse, String.mk cs]
      else splitFirstColonAux cs (c :: acc)

/-- Python `s.split(":", 1)`: split at the first colon only. -/
def pySplit1Colon (s : String) : List String :=
  splitFirstColonAux s.data []

/-- The `"object"` member of the `list-users` request body. -/
structure UsersObject where
  type : String
  id : String
deriving Repr, DecidableEq

/-- The object-parsing step of `FGAClient.list_users` (fga_client.py lines
386-395): `object_id, object_type = object.split(":", 1)` followed by
`{"type": object_type, "id": object_id}`.  Unpacking into two names raises
`ValueError` unless the split yields exactly two parts. -/
def listUsersObject (object : String) : Except String UsersObject :=
  match pySplit1Colon object with
  | [object_id, object_type] => Except.ok ⟨object_type, object_id⟩
  | _ => Except.error "ValueError: cannot unpack"

/-- The `ids_only` post-processing shared by `list_objects` (fga_client.py
lines 369-373) and `list_users` (lines 403-407):
`[x.split(":") for x in items]` followed by unpacking each result as
`_, the_id`, which raises `ValueError` unless an item splits into exactly
two parts. -/
def idsOnlyStrip : List String → Except String (List String)
  | [] => Except.ok []
  | s :: rest =>
    match pySplitColon s with
    | [_, theId] => (idsOnlyStrip rest).map fun ids => theId :: ids
    | _ => Except.error "ValueError: cannot unpack"

/-- The HTTP response to a `check` request: status code, the optional
`allowed` field of the JSON body, and the raw body text. -/
structure CheckResponse where
  status : Nat
  allowed : Option Bool
  raw : String
deriving Repr, DecidableEq

/-- `FGAClient.check_tuple` (fga_client.py lines 300-324) applied to the
server's response: `_raise_for_status` then the decoded body, of which only
the `allowed` field is relevant here. -/
def checkTupleResult (resp : CheckResponse) : Except String (Option Bool) :=
  if isSuccess resp.status then Except.ok resp.allowed
  else Except.error (errMsg resp.status resp.raw)

/-- `FGAClient.is_allowed` (fga_client.py lines 326-342):
`result.get("allowed", False)` on the `check_tuple` result. -/
def isAllowed (resp : CheckResponse) : Except String Bool :=
  match checkTupleResult resp with
  | Except.ok allowed => Except.ok (allowed.getD false)
  | Except.error e => Except.error e

/-! ## Helper lemmas about `dedupe` -/

theorem dedupeGo_mem {α : Type} [DecidableEq α] (l : List α) :
    ∀ (seen : List α) (x : α), x ∈ dedupeGo seen l ↔ x ∈ l ∧ x ∉ seen := by
  induction l with
  | nil => intro seen x; simp [dedupeGo]
  | cons a as ih =>
    intro seen x
    by_cases h : a ∈ seen
    · rw [dedupeGo, if_pos h, ih]
      simp only [List.mem_cons]
      constructor
      · rintro ⟨hx, hns⟩; exact ⟨Or.inr hx, hns⟩
      · rintro ⟨hx | hx, hns⟩
        · exact absurd (hx ▸ h) hns
        · exact ⟨hx, hns⟩
    · rw [dedupeGo, if_neg h]
      simp only [List.mem_cons, ih, not_or]
      constructor
      · rintro (hxa | ⟨hx, hne, hns⟩)
        · exact ⟨Or.inl hxa, by rw [hxa]; exact h⟩
        · exact ⟨Or.inr hx, hns⟩
      · rintro ⟨hxa | hx, hns⟩
        · exact Or.inl hxa
        · by_cases hxa : x = a
          · exact Or.inl hxa
          · exact Or.inr ⟨hx, hxa, hns⟩

theorem dedupeGo_sublist {α : Type} [DecidableEq α] (l : List α) :
    ∀ seen : List α, (dedupeGo seen l).Sublist l := by
  induction l with
  | nil => intro seen; simp [dedupeGo]
  | cons a as ih =>
    intro seen
    by_cases h : a ∈ seen
    · rw [dedupeGo, if_pos h]
      exact (ih seen).cons a
    · rw [dedupeGo, if_neg h]
      exact (ih (a :: seen)).cons₂ a

theorem dedupeGo_nodup {α : Type} [DecidableEq α] (l : List α) :
    ∀ seen : List α, (dedupeGo seen l).Nodup := by
  induction l with
  | nil => intro seen; simp [dedupeGo]
  | cons a as ih =>
    intro seen
    by_cases h : a ∈ seen
    · rw [dedupeGo, if_pos h]; exact ih seen
    · rw [dedupeGo, if_neg h]
      refine List.nodup_cons.mpr ⟨fun hmem => ?_, ih (a :: seen)⟩
      exact ((dedupeGo_mem as (a :: seen) a).mp hmem).2 (List.mem_cons_self a seen)

theorem dedupeGo_firstIdx_lt {α : Type} [DecidableEq α] (l : List α) :
    ∀ (seen : List α) (x y : α), x ∈ dedupeGo seen l → y ∈ dedupeGo seen l →
      (firstIdx (dedupeGo seen l) x < firstIdx (dedupeGo seen l) y ↔
        firstIdx l x < firstIdx l y) := by
  induction l with
  | nil => intro seen x y hx _; simp [dedupeGo] at hx
  | cons a as ih =>
    intro seen x y hx hy
    by_cases h : a ∈ seen
    · rw [dedupeGo, if_pos h] at hx hy ⊢
      have hxa : a ≠ x := fun e => ((dedupeGo_mem as seen x).mp hx).2 (e ▸ h)
      have hya : a ≠ y := fun e => ((dedupeGo_mem as seen y).mp hy).2 (e ▸ h)
      simp only [firstIdx, if_neg hxa, if_neg hya, Nat.add_lt_add_iff_right]
      exact ih seen x y hx hy
    · rw [dedupeGo, if_neg h] at hx hy ⊢
      by_cases hxa : x = a
      · rw [hxa]
        by_cases hya : y = a
        · rw [hya]
          exact iff_of_false (lt_irrefl _) (lt_irrefl _)
        · have hay : a ≠ y := fun e => hya e.symm
          simp [firstIdx, hay]
      · have hax : a ≠ x := fun e => hxa e.symm
        by_cases hya : y = a
        · rw [hya]
          simp [firstIdx, hax]
        · have hay : a ≠ y := fun e => hya e.symm
          have hx2 : x ∈ dedupeGo (a :: seen) as := by
            rcases List.mem_cons.mp hx with e | hx2
            · exact absurd e hxa
            · exact hx2
          have hy2 : y ∈ dedupeGo (a :: seen) as := by
            rcases List.mem_cons.mp hy with e | hy2
            · exact absurd e hya
            · exact hy2
          simp only [firstIdx, if_neg hax, if_neg hay, Nat.add_lt_add_iff_right]
          exact ih (a :: seen) x y hx2 hy2

theorem dedupeGo_eq_self {α : Type} [DecidableEq α] (l : List α) :
    ∀ seen : List α, l.Nodup → (∀ x ∈ l, x ∉ seen) → dedupeGo seen l = l := by
  induction l with
  | nil => intro seen _ _; rfl
  | cons a as ih =>
    intro seen hnd hseen
    rw [dedupeGo, if_neg (hseen a (List.mem_cons_self a as))]
    congr 1
    refine ih (a :: seen) (List.nodup_cons.mp hnd).2 fun x hx => ?_
    simp only [List.mem_cons, not_or]
    exact ⟨fun e => (List.nodup_cons.mp hnd).1 (e ▸ hx),
      hseen x (List.mem_cons_of_mem a hx)⟩

theorem dedupe_eq_self_of_nodup {α : Type} [DecidableEq α] (l : List α)
    (h : l.Nodup) : dedupe l = l :=
  dedupeGo_eq_self l [] h (by simp)

/-- C3 counterexample: two TupleKey dicts with identical `user`, `relation`
and `object` values but different field insertion order are structurally
equal (`dictEqb`), yet `dedupe` keeps both, because its identifier
`tuple(item.items())` is sensitive to dict insertion order.  This refutes
the claim that no two structurally equal elements survive deduplication
"regardless of field insertion order". -/
theorem c3_dedupe_counterexample :
    dictEqb [("user", "a"), ("relation", "r"), ("object", "o")]
            [("relation", "r"), ("user", "a"), ("object", "o")] = true ∧
    dedupe [[("user", "a"), ("relation", "r"), ("object", "o")],
            [("relation", "r"), ("user", "a"), ("object", "o")]] =
      [[("user", "a"), ("relation", "r"), ("object", "o")],
       [("relation", "r"), ("user", "a"), ("object", "o")]] := by
  constructor
  · decide
  · decide

/-- C3 (amended): `dedupe` deduplicates by the ordered sequence of
`(field, value)` pairs (the dict's insertion order), not by order-insensitive
structural equality: the output contains no two elements with equal ordered
field sequences, every input element (as a sequence) appears in the output,
the output is a subsequence of the input whose length is at most the input
length, and elements are retained at their first occurrence — the relative
order of two retained elements matches the order of their first occurrences
in the input. -/
theorem c3_dedupe_first_occurrence (l : List (List (String × String))) :
    (dedupe l).Nodup ∧
    (dedupe l).Sublist l ∧
    (∀ x, x ∈ dedupe l ↔ x ∈ l) ∧
    (dedupe l).length ≤ l.length ∧
    (∀ x y, x ∈ dedupe l → y ∈ dedupe l →
      (firstIdx (dedupe l) x < firstIdx (dedupe l) y ↔
        firstIdx l x < firstIdx l y)) := by
  refine ⟨dedupeGo_nodup l [], dedupeGo_sublist l [], fun x => ?_,
    (dedupeGo_sublist l []).length_le, fun x y hx hy => dedupeGo_firstIdx_lt l [] x y hx hy⟩
  rw [dedupe, dedupeGo_mem]
  simp

/-- Witness for the amended C3 at a concrete input with a duplicate:
the retained elements keep first-occurrence order. -/
theorem c3_dedupe_first_occurrence_witness :
    firstIdx (dedupe [[("user", "a")], [("user", "b")], [("user", "a")]]) [("user", "a")] <
      firstIdx (dedupe [[("user", "a")], [("user", "b")], [("user", "a")]]) [("user", "b")] ↔
    firstIdx ([[("user", "a")], [("user", "b")], [("user", "a")]] :
      List (List (String × String))) [("user", "a")] <
      firstIdx [[("user", "a")], [("user", "b")], [("user", "a")]] [("user", "b")] :=
  (c3_dedupe_first_occurrence [[("user", "a")], [("user", "b")], [("user", "a")]]).2.2.2.2
    [("user", "a")] [("user", "b")] (by decide) (by decide)

/-! ## Helper lemmas about `batcherize` -/

theorem batcherize_nil_iff {α : Type} (n : Nat) (l : List α) :
    batcherize n l = [] ↔ l = [] := by
  cases l <;> simp [batcherize]

theorem batcherize_succ_join {α : Type} (m : Nat) :
    ∀ (N : Nat) (l : List α), l.length ≤ N → (batcherize (m + 1) l).flatten = l := by
  intro N
  induction N with
  | zero =>
    intro l h
    have hl : l = [] := List.eq_nil_of_length_eq_zero (Nat.le_zero.mp h)
    rw [hl]; simp [batcherize]
  | succ N ih =>
    intro l h
    cases l with
    | nil => simp [batcherize]
    | cons x xs =>
      rw [batcherize, List.flatten_cons, Nat.add_sub_cancel,
        ih (xs.drop m) (by simp only [List.length_drop]; simp at h; omega),
        List.take_succ_cons, List.cons_append, List.take_append_drop]

theorem batcherize_succ_length {α : Type} (m : Nat) :
    ∀ (N : Nat) (l : List α), l.length ≤ N →
      (batcherize (m + 1) l).length = (l.length + m) / (m + 1) := by
  intro N
  induction N with
  | zero =>
    intro l h
    have hl : l = [] := List.eq_nil_of_length_eq_zero (Nat.le_zero.mp h)
    rw [hl]
    simp [batcherize, Nat.div_eq_of_lt (show m < m + 1 by omega)]
  | succ N ih =>
    intro l h
    cases l with
    | nil => simp [batcherize, Nat.div_eq_of_lt (show m < m + 1 by omega)]
    | cons x xs =>
      rw [batcherize, List.length_cons, Nat.add_sub_cancel,
        ih (xs.drop m) (by simp only [List.length_drop]; simp at h; omega),
        List.length_drop]
      by_cases hc : xs.length ≤ m
      · have h1 : xs.length - m = 0 := by omega
        rw [h1, Nat.zero_add, Nat.div_eq_of_lt (show m < m + 1 by omega)]
        rw [Nat.div_eq_of_lt_le (show 1 * (m + 1) ≤ (x :: xs).length + m by
          simp only [List.length_cons]; omega)
          (show (x :: xs).length + m < (1 + 1) * (m + 1) by
          simp only [List.length_cons]; omega)]
      · have h1 : xs.length - m + m = xs.length := by omega
        rw [h1]
        have h2 : (x :: xs).length + m = xs.length + (m + 1) := by
          simp only [List.length_cons]; omega
        rw [h2, Nat.add_div_right _ (show 0 < m + 1 by omega), Nat.add_comm]

theorem batcherize_succ_sizes {α : Type} (m : Nat) :
    ∀ (N : Nat) (l : List α), l.length ≤ N →
      (∀ c ∈ batcherize (m + 1) l, c.length ≤ m + 1) ∧
      (∀ i, i + 1 < (batcherize (m + 1) l).length →
        ((batcherize (m + 1) l)[i]?).map List.length = some (m + 1)) := by
  intro N
  induction N with
  | zero =>
    intro l h
    have hl : l = [] := List.eq_nil_of_length_eq_zero (Nat.le_zero.mp h)
    rw [hl]
    exact ⟨by simp [batcherize], by simp [batcherize]⟩
  | succ N ih =>
    intro l h
    cases l with
    | nil => exact ⟨by simp [batcherize], by simp [batcherize]⟩
    | cons x xs =>
      have hdrop : (xs.drop m).length ≤ N := by
        simp only [List.length_drop]; simp at h; omega
      obtain ⟨ihle, ihex⟩ := ih (xs.drop m) hdrop
      rw [batcherize, Nat.add_sub_cancel]
      constructor
      · intro c hc
        rcases List.mem_cons.mp hc with rfl | hc
        · rw [List.length_take]; exact Nat.min_le_left _ _
        · exact ihle c hc
      · intro i hi
        cases i with
        | zero =>
          rw [List.length_cons] at hi
          have hne : batcherize (m + 1) (xs.drop m) ≠ [] := by
            intro he; rw [he] at hi; simp at hi
          have hxs : ¬ xs.length ≤ m := by
            intro hle
            exact hne ((batcherize_nil_iff _ _).mpr
              (List.drop_eq_nil_of_le (by simpa using hle)))
          simp only [List.getElem?_cons_zero, Option.map_some']
          rw [List.length_take]
          congr 1
          simp only [List.length_cons]
          omega
        | succ i =>
          rw [List.length_cons] at hi
          rw [List.getElem?_cons_succ]
          exact ihex i (by omega)

/-! ## Identity resolution helper lemmas -/

theorem getStoreId_some (s : String) (hs : s ≠ "") (inst : Option String) :
    getStoreId (some s) inst = Except.ok s := by
  simp [getStoreId, pyTruthy, hs]

theorem getModelId_some (s : String) (hs : s ≠ "") (inst : Option String) :
    getModelId (some s) inst = Except.ok s := by
  simp [getModelId, pyTruthy, hs]

theorem getStoreId_fallback (arg : Option String) (ha : pyTruthy arg = false)
    (s : String) (hs : s ≠ "") : getStoreId arg (some s) = Except.ok s := by
  cases arg with
  | none => simp [getStoreId, pyTruthy, hs]
  | some a =>
    simp only [pyTruthy, bne_eq_false_iff_eq] at ha
    simp [getStoreId, pyTruthy, ha, hs]

theorem getModelId_fallback (arg : Option String) (ha : pyTruthy arg = false)
    (s : String) (hs : s ≠ "") : getModelId arg (some s) = Except.ok s := by
  cases arg with
  | none => simp [getModelId, pyTruthy, hs]
  | some a =>
    simp only [pyTruthy, bne_eq_false_iff_eq] at ha
    simp [getModelId, pyTruthy, ha, hs]

theorem getStoreId_error (arg inst : Option String) (ha : pyTruthy arg = false)
    (hi : pyTruthy inst = false) :
    getStoreId arg inst = Except.error "store_id must be provided" := by
  cases arg <;> cases inst <;>
    simp_all [getStoreId, pyTruthy, bne_eq_false_iff_eq]

theorem getModelId_error (arg inst : Option String) (ha : pyTruthy arg = false)
    (hi : pyTruthy inst = false) :
    getModelId arg inst = Except.error "model_id must be provided" := by
  cases arg <;> cases inst <;>
    simp_all [getModelId, pyTruthy, bne_eq_false_iff_eq]

/-- C4: for an already-deduplicated list `l` and the fixed batch limit 100,
`write_tuples` and `delete_tuples` issue exactly one request per chunk of
`batcherize 100 l`, in chunk order, carrying the tolerance flag; the number
of chunks is `⌈l.length / 100⌉`, every chunk except possibly the last has
size exactly 100, every chunk has size at most 100, and the concatenation of
the chunks reproduces `l` exactly. -/
theorem c4_batching (l : List (List (String × String))) (hd : dedupe l = l)
    (sid mid : String) (hs : sid ≠ "") (hm : mid ≠ "") (ignW ignD : Bool) :
    writeTuples l (some sid) none (some mid) none ignW =
      Except.ok ((batcherize 100 l).map fun batch =>
        ⟨sid, WriteBody.writes batch (if ignW then "ignore" else "error"), mid⟩) ∧
    deleteTuples l (some sid) none (some mid) none ignD =
      Except.ok ((batcherize 100 l).map fun batch =>
        ⟨sid, WriteBody.deletes batch (if ignD then "ignore" else "error"), mid⟩) ∧
    (batcherize 100 l).length = (l.length + 99) / 100 ∧
    (∀ c ∈ batcherize 100 l, c.length ≤ 100) ∧
    (∀ i, i + 1 < (batcherize 100 l).length →
      ((batcherize 100 l)[i]?).map List.length = some 100) ∧
    (batcherize 100 l).flatten = l := by
  refine ⟨?_, ?_, ?_, ?_, ?_, ?_⟩
  · rw [writeTuples, getStoreId_some sid hs, getModelId_some mid hm]
    simp [hd, Bind.bind, Except.bind]
  · rw [deleteTuples, getStoreId_some sid hs, getModelId_some mid hm]
    simp [hd, Bind.bind, Except.bind]
  · exact batcherize_succ_length 99 l.length l le_rfl
  · exact (batcherize_succ_sizes 99 l.length l le_rfl).1
  · exact (batcherize_succ_sizes 99 l.length l le_rfl).2
  · exact batcherize_succ_join 99 l.length l le_rfl

/-- Witness for C4 at a concrete two-element deduplicated list. -/
theorem c4_batching_witness :
    writeTuples [[("user", "a")], [("user", "b")]] (some "s") none (some "m") none true =
      Except.ok ((batcherize 100 [[("user", "a")], [("user", "b")]]).map fun batch =>
        ⟨"s", WriteBody.writes batch (if true then "ignore" else "error"), "m"⟩) ∧
    deleteTuples [[("user", "a")], [("user", "b")]] (some "s") none (some "m") none false =
      Except.ok ((batcherize 100 [[("user", "a")], [("user", "b")]]).map fun batch =>
        ⟨"s", WriteBody.deletes batch (if false then "ignore" else "error"), "m"⟩) ∧
    (batcherize 100 [[("user", "a")], [("user", "b")]]).length =
      (([[("user", "a")], [("user", "b")]] :
        List (List (String × String))).length + 99) / 100 ∧
    (∀ c ∈ batcherize 100 [[("user", "a")], [("user", "b")]], c.length ≤ 100) ∧
    (∀ i, i + 1 < (batcherize 100 [[("user", "a")], [("user", "b")]]).length →
      ((batcherize 100 [[("user", "a")], [("user", "b")]])[i]?).map List.length =
        some 100) ∧
    (batcherize 100 [[("user", "a")], [("user", "b")]]).flatten =
      [[("user", "a")], [("user", "b")]] :=
  c4_batching [[("user", "a")], [("user", "b")]] (by decide) "s" "m"
    (by decide) (by decide) true false

/-- C6: identifier resolution for every operation: a truthy explicit
argument wins; otherwise a truthy configured instance identifier is used;
otherwise the call fails with the configuration error — and for the
tuple-writing operations this failure is the result of the whole call, so
no request list is ever produced. -/
theorem c6_identifier_resolution (arg inst argM instM : Option String) :
    (∀ s, arg = some s → s ≠ "" → getStoreId arg inst = Except.ok s) ∧
    (pyTruthy arg = false → ∀ s, inst = some s → s ≠ "" →
      getStoreId arg inst = Except.ok s) ∧
    (pyTruthy arg = false → pyTruthy inst = false →
      getStoreId arg inst = Except.error "store_id must be provided") ∧
    (∀ s, argM = some s → s ≠ "" → getModelId argM instM = Except.ok s) ∧
    (pyTruthy argM = false → ∀ s, instM = some s → s ≠ "" →
      getModelId argM instM = Except.ok s) ∧
    (pyTruthy argM = false → pyTruthy instM = false →
      getModelId argM instM = Except.error "model_id must be provided") ∧
    (pyTruthy arg = false → pyTruthy inst = false →
      ∀ (tuples : List (List (String × String))) (ign : Bool),
        writeTuples tuples arg inst argM instM ign =
          Except.error "store_id must be provided") ∧
    (pyTruthy arg = false → pyTruthy inst = false →
      ∀ (tuples : List (List (String × String))) (ign : Bool),
        deleteTuples tuples arg inst argM instM ign =
          Except.error "store_id must be provided") := by
  refine ⟨?_, ?_, ?_, ?_, ?_, ?_, ?_, ?_⟩
  · rintro s rfl hs; exact getStoreId_some s hs inst
  · rintro ha s rfl hs; exact getStoreId_fallback arg ha s hs
  · exact getStoreId_error arg inst
  · rintro s rfl hs; exact getModelId_some s hs instM
  · rintro ha s rfl hs; exact getModelId_fallback argM ha s hs
  · exact getModelId_error argM instM
  · intro ha hi tuples ign
    rw [writeTuples, getStoreId_error arg inst ha hi]
    simp [Bind.bind, Except.bind]
  · intro ha hi tuples ign
    rw [deleteTuples, getStoreId_error arg inst ha hi]
    simp [Bind.bind, Except.bind]

/-- Witness for C6: with no explicit id and no configured id, `write_tuples`
fails with the store configuration error before producing any request. -/
theorem c6_identifier_resolution_witness :
    writeTuples [[("user", "a")]] none (some "") (some "m") none true =
      Except.error "store_id must be provided" :=
  (c6_identifier_resolution none (some "") (some "m") none).2.2.2.2.2.2.1
    (by decide) (by decide) [[("user", "a")]] true

/-- C7 (code bug): for the object string `"doc:readme"` (`type:id`
convention, so type `"doc"`, id `"readme"`), `list_users` builds the request
object with `type := "readme"` and `id := "doc"` — the destructuring
`object_id, object_type = object.split(":", 1)` binds the components in the
wrong order, so the type and id are swapped relative to the claim. -/
theorem c7_list_users_object_swapped :
    listUsersObject "doc:readme" = Except.ok ⟨"readme", "doc"⟩ := by
  rfl

/-- C8 counterexample: an item whose id portion itself contains a colon.
The claim says the `ids_only` post-processing returns the full substring
after the first colon (`"2024:q1"`); the code instead splits at every colon
and unpacks into exactly two names, which raises `ValueError`. -/
theorem c8_ids_only_counterexample :
    idsOnlyStrip ["doc:2024:q1"] = Except.error "ValueError: cannot unpack" ∧
    idsOnlyStrip ["doc:2024:q1"] ≠ Except.ok ["2024:q1"] := by
  have h : idsOnlyStrip ["doc:2024:q1"] = Except.error "ValueError: cannot unpack" := rfl
  exact ⟨h, by rw [h]; simp⟩

/-- C8 (amended): the `ids_only` post-processing of `list_objects` and
`list_users` returns, for every item containing exactly one colon, the
substring after that colon; an item with zero colons or more than one colon
makes the whole call raise `ValueError` instead. -/
theorem c8_ids_only_single_colon (items : List String)
    (h : ∀ s ∈ items, (pySplitColon s).length = 2) :
    idsOnlyStrip items = Except.ok (items.map fun s => (pySplitColon s).getD 1 "") := by
  induction items with
  | nil => rfl
  | cons s rest ih =>
    have hs := h s (List.mem_cons_self s rest)
    obtain ⟨a, b, hab⟩ : ∃ a b, pySplitColon s = [a, b] := by
      match hsp : pySplitColon s with
      | [] => rw [hsp] at hs; simp at hs
      | [_] => rw [hsp] at hs; simp at hs
      | [a, b] => exact ⟨a, b, rfl⟩
      | _ :: _ :: _ :: _ => rw [hsp] at hs; simp at hs
    rw [idsOnlyStrip, hab, ih fun x hx => h x (List.mem_cons_of_mem s hx)]
    simp [hab, Except.map]

/-- Witness for the amended C8: for items with exactly one colon the id part
is returned. -/
theorem c8_ids_only_single_colon_witness :
    idsOnlyStrip ["doc:1", "user:alice"] =
      Except.ok (["doc:1", "user:alice"].map fun s => (pySplitColon s).getD 1 "") :=
  c8_ids_only_single_colon ["doc:1", "user:alice"] (by decide)

/-- C10: for every 2xx check response, `is_allowed` returns the value of the
`allowed` field, defaulting to `False` when the field is absent. -/
theorem c10_is_allowed (resp : CheckResponse) (h : isSuccess resp.status = true) :
    isAllowed resp = Except.ok (resp.allowed.getD false) ∧
    (resp.allowed = none → isAllowed resp = Except.ok false) := by
  have h1 : isAllowed resp = Except.ok (resp.allowed.getD false) := by
    rw [isAllowed, checkTupleResult, if_pos h]
  exact ⟨h1, fun hn => by rw [h1, hn]; rfl⟩

/-- Witness for C10 at a 2xx response with no `allowed` field: fail closed. -/
theorem c10_is_allowed_witness :
    isAllowed ⟨200, none, "ok"⟩ = Except.ok ((none : Option Bool).getD false) ∧
    ((none : Option Bool) = none → isAllowed ⟨200, none, "ok"⟩ = Except.ok false) :=
  c10_is_allowed ⟨200, none, "ok"⟩ (by decide)

/-! ## Pagination engine lemmas -/

theorem dictGet_dictSet (d : List (String × String)) (k v : String) :
    dictGet (dictSet d k v) k = some v := by
  induction d with
  | nil => simp [dictSet, dictGet]
  | cons kv rest ih =>
    obtain ⟨k2, v2⟩ := kv
    by_cases h : k2 = k
    · rw [dictSet, if_pos h, dictGet, if_pos rfl]
    · rw [dictSet, if_neg h, dictGet, if_neg h]; exact ih

theorem reqCursor_injectCursor (method endpoint : String)
    (params : List (String × String)) (b : Option (List (String × String)))
    (t : String) (ht : t ≠ "") :
    reqCursor method ⟨endpoint, (injectCursor method params b (some t)).1,
      (injectCursor method params b (some t)).2⟩ = some t := by
  by_cases hg : pyUpper method = "GET" <;>
    simp [injectCursor, reqCursor, ht, hg, dictGet_dictSet]

/-- Full characterisation of a successful pagination run: `front` are the
pages carrying a truthy continuation token, `last` the final page whose
token is missing or empty.  The engine returns the concatenation of all
pages' items, issues one request per page, starts from the request built
out of the incoming token, carries each page's token into the following
request, and (for non-GET methods) leaves the last injected token in the
body it threads through. -/
theorem paginateGo_pages (method endpoint : String) (params : List (String × String))
    (last : Response) (hls : isSuccess last.status = true)
    (hlt : pyTruthy last.token = false) :
    ∀ (front : List Response),
      (∀ p ∈ front, isSuccess p.status = true ∧ pyTruthy p.token = true) →
      ∀ (b0 : Option (List (String × String))) (tok0 : Option String)
        (acc : List String) (reqs0 : List Request),
      ∃ fb reqsN,
        paginateGo method endpoint params b0 tok0 acc reqs0 (front ++ [last]) =
          PaginateOutcome.ok (acc ++ ((front ++ [last]).map fun r => r.items).flatten)
            fb (reqs0 ++ reqsN) ∧
        reqsN.length = front.length + 1 ∧
        reqsN[0]? = some ⟨endpoint, (injectCursor method params b0 tok0).1,
          (injectCursor method params b0 tok0).2⟩ ∧
        (∀ i, i < front.length →
          (reqsN[i + 1]?).bind (fun r => reqCursor method r) =
            (front[i]?).bind fun p => p.token) ∧
        (front = [] → fb = (injectCursor method params b0 tok0).2) ∧
        (pyUpper method ≠ "GET" → front ≠ [] →
          dictGet (fb.getD []) "continuation_token" =
            front.getLast?.bind fun p => p.token) := by
  intro front
  induction front with
  | nil =>
    intro _ b0 tok0 acc reqs0
    refine ⟨(injectCursor method params b0 tok0).2,
      [⟨endpoint, (injectCursor method params b0 tok0).1,
        (injectCursor method params b0 tok0).2⟩], ?_, rfl, by simp,
      fun i hi => absurd hi (Nat.not_lt_zero i), fun _ => rfl,
      fun _ hne => absurd rfl hne⟩
    rw [List.nil_append, paginateGo, if_pos hls, if_neg (by rw [hlt]; exact Bool.false_ne_true)]
    simp
  | cons p front ihf =>
    intro hf b0 tok0 acc reqs0
    obtain ⟨hps, hpt⟩ := hf p (List.mem_cons_self p front)
    have hf2 : ∀ q ∈ front, isSuccess q.status = true ∧ pyTruthy q.token = true :=
      fun q hq => hf q (List.mem_cons_of_mem p hq)
    obtain ⟨t, hpt_eq, htne⟩ : ∃ t, p.token = some t ∧ t ≠ "" := by
      cases he : p.token with
      | none => rw [he] at hpt; simp [pyTruthy] at hpt
      | some t =>
        refine ⟨t, rfl, ?_⟩
        rw [he] at hpt
        simpa [pyTruthy] using hpt
    obtain ⟨fb, reqsN, heq, hlen, h0, hnext, hbase, hbody⟩ :=
      ihf hf2 (injectCursor method params b0 tok0).2 p.token (acc ++ p.items)
        (reqs0 ++ [⟨endpoint, (injectCursor method params b0 tok0).1,
          (injectCursor method params b0 tok0).2⟩])
    refine ⟨fb, ⟨endpoint, (injectCursor method params b0 tok0).1,
      (injectCursor method params b0 tok0).2⟩ :: reqsN, ?_, by simp [hlen], by simp,
      ?_, fun habs => absurd habs (List.cons_ne_nil p front), ?_⟩
    · rw [List.cons_append, paginateGo, if_pos hps, if_pos hpt, heq]
      simp [List.append_assoc]
    · intro i hi
      cases i with
      | zero =>
        simp only [List.getElem?_cons_succ, List.getElem?_cons_zero]
        rw [h0]
        simp only [Option.some_bind]
        rw [hpt_eq]
        exact reqCursor_injectCursor method endpoint params
          (injectCursor method params b0 tok0).2 t htne
      | succ i =>
        simp only [List.getElem?_cons_succ]
        exact hnext i (by simpa using hi)
    · intro hmg hne
      cases front with
      | nil =>
        have hb := hbase rfl
        rw [hb, hpt_eq]
        rw [injectCursor, if_pos htne, if_neg hmg]
        simp [dictGet_dictSet, hpt_eq]
      | cons q front2 =>
        have hrec := hbody hmg (List.cons_ne_nil q front2)
        rw [List.getLast?_cons_cons]
        exact hrec

/-- If every page the mock server holds is 2xx with a truthy continuation
token, the engine never stops on its own: it asks for one more page than the
server has.  There is no page-count cap. -/
theorem paginateGo_all_tokens (method endpoint : String)
    (params : List (String × String)) :
    ∀ (pages : List Response),
      (∀ p ∈ pages, isSuccess p.status = true ∧ pyTruthy p.token = true) →
      ∀ (b0 : Option (List (String × String))) (tok0 : Option String)
        (acc : List String) (reqs0 : List Request),
      ∃ reqsN, paginateGo method endpoint params b0 tok0 acc reqs0 pages =
          PaginateOutcome.exhausted (reqs0 ++ reqsN) ∧
        reqsN.length = pages.length + 1 := by
  intro pages
  induction pages with
  | nil =>
    intro _ b0 tok0 acc reqs0
    exact ⟨[⟨endpoint, (injectCursor method params b0 tok0).1,
      (injectCursor method params b0 tok0).2⟩], rfl, rfl⟩
  | cons p rest ih =>
    intro hp b0 tok0 acc reqs0
    obtain ⟨hps, hpt⟩ := hp p (List.mem_cons_self p rest)
    obtain ⟨reqsN, heq, hlen⟩ := ih (fun q hq => hp q (List.mem_cons_of_mem p hq))
      (injectCursor method params b0 tok0).2 p.token (acc ++ p.items)
      (reqs0 ++ [⟨endpoint, (injectCursor method params b0 tok0).1,
        (injectCursor method params b0 tok0).2⟩])
    refine ⟨⟨endpoint, (injectCursor method params b0 tok0).1,
      (injectCursor method params b0 tok0).2⟩ :: reqsN, ?_, by simp [hlen]⟩
    rw [paginateGo, if_pos hps, if_pos hpt, heq]
    simp

/-- If the pages before `bad` are all 2xx with truthy tokens and `bad` has a
non-2xx status, the whole run reduces to the `_raise_for_status` error for
`bad`, whatever comes after it. -/
theorem paginateGo_error (method endpoint : String)
    (params : List (String × String)) (bad : Response)
    (hbad : isSuccess bad.status = false) :
    ∀ (front : List Response),
      (∀ p ∈ front, isSuccess p.status = true ∧ pyTruthy p.token = true) →
      ∀ (rest : List Response) (b0 : Option (List (String × String)))
        (tok0 : Option String) (acc : List String) (reqs0 : List Request),
      paginateGo method endpoint params b0 tok0 acc reqs0 (front ++ bad :: rest) =
        PaginateOutcome.httpError (errMsg bad.status bad.raw) := by
  intro front
  induction front with
  | nil =>
    intro _ rest b0 tok0 acc reqs0
    rw [List.nil_append, paginateGo,
      if_neg (by rw [hbad]; exact Bool.false_ne_true)]
  | cons p front ih =>
    intro hf rest b0 tok0 acc reqs0
    obtain ⟨hps, hpt⟩ := hf p (List.mem_cons_self p front)
    rw [List.cons_append, paginateGo, if_pos hps, if_pos hpt]
    exact ih (fun q hq => hf q (List.mem_cons_of_mem p hq)) rest _ _ _ _

/-- C1: against a mock server returning `K = front.length + 1` pages, the
pages before the last all carrying a truthy (non-empty) continuation token
and the last carrying a missing or empty one, `_paginate` returns the
concatenation of all pages' item lists in page order, issues exactly `K`
requests, and carries each returned token into the following request — in
the query parameters for GET, in the JSON body otherwise (`reqCursor`).
Moreover (second conjunct) the token check is the sole exit condition: if
every page carries a truthy token the engine keeps requesting past the end
of the server's pages. -/
theorem c1_pagination_protocol (method endpoint : String)
    (params : List (String × String)) (b0 : Option (List (String × String)))
    (front : List Response) (last : Response)
    (hfront : ∀ p ∈ front, isSuccess p.status = true ∧ pyTruthy p.token = true)
    (hlast : isSuccess last.status = true)
    (hdone : pyTruthy last.token = false) :
    (∃ fb reqs,
      paginate method endpoint params b0 (front ++ [last]) =
        PaginateOutcome.ok (((front ++ [last]).map fun r => r.items).flatten) fb reqs ∧
      reqs.length = front.length + 1 ∧
      (∀ i, i < front.length →
        (reqs[i + 1]?).bind (fun r => reqCursor method r) =
          (front[i]?).bind fun p => p.token)) ∧
    (∀ pages : List Response,
      (∀ p ∈ pages, isSuccess p.status = true ∧ pyTruthy p.token = true) →
      ∃ reqs, paginate method endpoint params b0 pages =
          PaginateOutcome.exhausted reqs ∧ reqs.length = pages.length + 1) := by
  constructor
  · obtain ⟨fb, reqsN, heq, hlen, _h0, hnext, _, _⟩ :=
      paginateGo_pages method endpoint params last hlast hdone front hfront b0 none [] []
    refine ⟨fb, reqsN, ?_, hlen, hnext⟩
    rw [paginate, heq]
    simp
  · intro pages hp
    obtain ⟨reqsN, heq, hlen⟩ :=
      paginateGo_all_tokens method endpoint params pages hp b0 none [] []
    exact ⟨reqsN, by rw [paginate, heq]; simp, hlen⟩

/-- Witness for C1: a three-page GET run (two truthy tokens, then a missing
one) concatenates the three pages and issues three requests. -/
theorem c1_pagination_protocol_witness :
    (∃ fb reqs,
      paginate "GET" "/stores" [] none
          (([⟨200, ["a"], some "t1", "x"⟩, ⟨200, ["b"], some "t2", "y"⟩] :
            List Response) ++ [⟨200, ["c"], none, "z"⟩]) =
        PaginateOutcome.ok
          ((List.map (fun r : Response => r.items)
            (([⟨200, ["a"], some "t1", "x"⟩, ⟨200, ["b"], some "t2", "y"⟩] :
              List Response) ++ [⟨200, ["c"], none, "z"⟩])).flatten)
          fb reqs ∧
      reqs.length = ([⟨200, ["a"], some "t1", "x"⟩, ⟨200, ["b"], some "t2", "y"⟩] :
        List Response).length + 1 ∧
      (∀ i, i < ([⟨200, ["a"], some "t1", "x"⟩, ⟨200, ["b"], some "t2", "y"⟩] :
          List Response).length →
        (reqs[i + 1]?).bind (fun r => reqCursor "GET" r) =
          (([⟨200, ["a"], some "t1", "x"⟩, ⟨200, ["b"], some "t2", "y"⟩] :
            List Response)[i]?).bind fun p => p.token)) ∧
    (∀ pages : List Response,
      (∀ p ∈ pages, isSuccess p.status = true ∧ pyTruthy p.token = true) →
      ∃ reqs, paginate "GET" "/stores" [] none pages =
          PaginateOutcome.exhausted reqs ∧ reqs.length = pages.length + 1) :=
  c1_pagination_protocol "GET" "/stores" [] none
    [⟨200, ["a"], some "t1", "x"⟩, ⟨200, ["b"], some "t2", "y"⟩]
    ⟨200, ["c"], none, "z"⟩ (by decide) (by decide) (by decide)

theorem errMsg_contains_status (s : Nat) (b : String) :
    strContains (errMsg s b) (toString s) :=
  ⟨"FGA API request failed: ".data, ("\n" ++ b).data,
    by simp [errMsg, String.data_append]⟩

theorem errMsg_contains_body (s : Nat) (b : String) :
    strContains (errMsg s b) b :=
  ⟨("FGA API request failed: " ++ toString s ++ "\n").data, [],
    by simp [errMsg, String.data_append]⟩

/-- C2 counterexample: a POST pagination whose second page fails with a 500.
The run aborts with the `_raise_for_status` message, but that message —
`"FGA API request failed: 500\n..."` — does not contain the endpoint
`"/stores/s1/read"`, refuting the part of the claim that says the raised
error includes the endpoint. -/
theorem c2_error_counterexample :
    paginate "POST" "/stores/s1/read" [] (some [("consistency", "M")])
        [⟨200, ["a"], some "t1", "ok"⟩, ⟨500, [], none, "oops"⟩] =
      PaginateOutcome.httpError (errMsg 500 "oops") ∧
    ¬ strContains (errMsg 500 "oops") "/stores/s1/read" := by
  constructor
  · rfl
  · decide

/-- C2 (amended): a non-2xx page anywhere in the run makes the whole
pagination abort at once with the single `_raise_for_status` error, which
contains the status code and the response body (but not the endpoint), and
no accumulated items are returned — the outcome is never `ok`, whatever
pages would have followed. -/
theorem c2_error_aborts_pagination (method endpoint : String)
    (params : List (String × String)) (b0 : Option (List (String × String)))
    (front : List Response) (bad : Response) (rest : List Response)
    (hfront : ∀ p ∈ front, isSuccess p.status = true ∧ pyTruthy p.token = true)
    (hbad : isSuccess bad.status = false) :
    paginate method endpoint params b0 (front ++ bad :: rest) =
      PaginateOutcome.httpError (errMsg bad.status bad.raw) ∧
    strContains (errMsg bad.status bad.raw) (toString bad.status) ∧
    strContains (errMsg bad.status bad.raw) bad.raw ∧
    (∀ its fb reqs, paginate method endpoint params b0 (front ++ bad :: rest) ≠
      PaginateOutcome.ok its fb reqs) := by
  have hpag : paginate method endpoint params b0 (front ++ bad :: rest) =
      PaginateOutcome.httpError (errMsg bad.status bad.raw) :=
    paginateGo_error method endpoint params bad hbad front hfront rest b0 none [] []
  refine ⟨hpag, errMsg_contains_status bad.status bad.raw,
    errMsg_contains_body bad.status bad.raw, ?_⟩
  intro its fb reqs hc
  rw [hpag] at hc
  exact PaginateOutcome.noConfusion hc

/-- Witness for the amended C2: page 2 of 3 fails, the run aborts with the
error for that page. -/
theorem c2_error_aborts_pagination_witness :
    paginate "POST" "/stores/s1/read" [] (some [("consistency", "M")])
        (([⟨200, ["a"], some "t1", "ok"⟩] : List Response) ++
          ⟨502, [], some "t2", "bad gateway"⟩ :: [⟨200, ["c"], none, "ok"⟩]) =
      PaginateOutcome.httpError (errMsg 502 "bad gateway") ∧
    strContains (errMsg 502 "bad gateway") (toString 502) ∧
    strContains (errMsg 502 "bad gateway") "bad gateway" ∧
    (∀ its fb reqs,
      paginate "POST" "/stores/s1/read" [] (some [("consistency", "M")])
          (([⟨200, ["a"], some "t1", "ok"⟩] : List Response) ++
            ⟨502, [], some "t2", "bad gateway"⟩ :: [⟨200, ["c"], none, "ok"⟩]) ≠
        PaginateOutcome.ok its fb reqs) :=
  c2_error_aborts_pagination "POST" "/stores/s1/read" [] (some [("consistency", "M")])
    [⟨200, ["a"], some "t1", "ok"⟩] ⟨502, [], some "t2", "bad gateway"⟩
    [⟨200, ["c"], none, "ok"⟩] (by decide) (by decide)

/-- C9: a non-GET paginated call with a caller-supplied body and at least
one truthy continuation token leaves the token in the body dict it threads
through (the caller's dict, mutated in place by the Python code): after the
run the body's `continuation_token` entry holds the last token injected,
namely the token of the page before the terminating one.  The engine never
removes or resets the entry. -/
theorem c9_body_mutation (method endpoint : String)
    (params : List (String × String)) (b0 : List (String × String))
    (front : List Response) (last : Response)
    (hm : pyUpper method ≠ "GET") (hne : front ≠ [])
    (hfront : ∀ p ∈ front, isSuccess p.status = true ∧ pyTruthy p.token = true)
    (hlast : isSuccess last.status = true)
    (hdone : pyTruthy last.token = false) :
    ∃ its d reqs tlast,
      paginate method endpoint params (some b0) (front ++ [last]) =
        PaginateOutcome.ok its (some d) reqs ∧
      front.getLast?.bind (fun p => p.token) = some tlast ∧
      tlast ≠ "" ∧
      dictGet d "continuation_token" = some tlast := by
  obtain ⟨fb, reqsN, heq, _hlen, _h0, _hnext, _hbase, hbody⟩ :=
    paginateGo_pages method endpoint params last hlast hdone front hfront
      (some b0) none [] []
  have hget := hbody hm hne
  obtain ⟨q, hq⟩ : ∃ q, front.getLast? = some q := by
    cases hgl : front.getLast? with
    | none => exact absurd (List.getLast?_eq_none_iff.mp hgl) hne
    | some q => exact ⟨q, rfl⟩
  have hqmem : q ∈ front := List.mem_of_getLast?_eq_some hq
  obtain ⟨t, ht_eq, htne⟩ : ∃ t, q.token = some t ∧ t ≠ "" := by
    obtain ⟨_, hqt⟩ := hfront q hqmem
    cases he : q.token with
    | none => rw [he] at hqt; simp [pyTruthy] at hqt
    | some t =>
      refine ⟨t, rfl, ?_⟩
      rw [he] at hqt
      simpa [pyTruthy] using hqt
  rw [hq] at hget
  simp only [Option.some_bind, ht_eq] at hget
  obtain ⟨d, hd⟩ : ∃ d, fb = some d := by
    cases hfb : fb with
    | none => rw [hfb] at hget; simp [dictGet] at hget
    | some d => exact ⟨d, rfl⟩
  refine ⟨[] ++ ((front ++ [last]).map fun r => r.items).flatten, d, [] ++ reqsN, t,
    ?_, ?_, htne, ?_⟩
  · rw [← hd]; exact heq
  · rw [hq]; simp [ht_eq]
  · rw [hd] at hget; simpa using hget

/-- Witness for C9: a two-page POST run whose first page returns token
`"t1"`; afterwards the threaded body holds `continuation_token = "t1"`. -/
theorem c9_body_mutation_witness :
    ∃ its d reqs tlast,
      paginate "POST" "/stores/s1/read" [] (some [("consistency", "M")])
          (([⟨200, ["a"], some "t1", "ok"⟩] : List Response) ++
            [⟨200, ["b"], none, "ok"⟩]) =
        PaginateOutcome.ok its (some d) reqs ∧
      ([⟨200, ["a"], some "t1", "ok"⟩] : List Response).getLast?.bind
        (fun p => p.token) = some tlast ∧
      tlast ≠ "" ∧
      dictGet d "continuation_token" = some tlast :=
  c9_body_mutation "POST" "/stores/s1/read" [] [("consistency", "M")]
    [⟨200, ["a"], some "t1", "ok"⟩] ⟨200, ["b"], none, "ok"⟩
    (by decide) (by decide) (by decide) (by decide) (by decide)

/-- C5: `ensure_seed` performs, in strict order, one complete paginated
read, then the deletion of exactly the tuple keys just read (batched, every
delete request carrying `on_missing: ignore`), then the write of exactly the
desired seed tuples (batched, every write request carrying
`on_duplicate: ignore`); every delete request precedes every write request
in the trace.  The second and third conjuncts state that the delete batches
concatenate to exactly the keys read and the write batches to exactly the
seed list. -/
theorem c5_ensure_seed (sid mid : String) (hs : sid ≠ "") (hm : mid ≠ "")
    (readResult : List ReadTuple) (seed : List (List (String × String)))
    (hread : (readResult.map fun t => t.key).Nodup) (hseed : seed.Nodup) :
    ensureSeed (some sid) (some mid) readResult seed =
      Except.ok (SeedStep.read sid ::
        (((batcherize 100 (readResult.map fun t => t.key)).map fun b =>
          SeedStep.tupleReq ⟨sid, WriteBody.deletes b "ignore", mid⟩) ++
        ((batcherize 100 seed).map fun b =>
          SeedStep.tupleReq ⟨sid, WriteBody.writes b "ignore", mid⟩))) ∧
    (batcherize 100 (readResult.map fun t => t.key)).flatten =
      readResult.map (fun t => t.key) ∧
    (batcherize 100 seed).flatten = seed := by
  refine ⟨?_, batcherize_succ_join 99 _ _ le_rfl, batcherize_succ_join 99 _ _ le_rfl⟩
  rw [ensureSeed, getStoreId_fallback none rfl sid hs,
    deleteTuples, getStoreId_fallback none rfl sid hs,
    getModelId_fallback none rfl mid hm,
    writeTuples, getStoreId_fallback none rfl sid hs,
    getModelId_fallback none rfl mid hm,
    dedupe_eq_self_of_nodup _ hread, dedupe_eq_self_of_nodup _ hseed]
  simp only [Bind.bind, Except.bind, List.map_map, if_true]
  rfl

/-- Witness for C5 at a concrete store state and seed set. -/
theorem c5_ensure_seed_witness :
    ensureSeed (some "s") (some "m") [⟨[("user", "a")]⟩] [[("user", "b")]] =
      Except.ok (SeedStep.read "s" ::
        (((batcherize 100 (([⟨[("user", "a")]⟩] : List ReadTuple).map fun t =>
            t.key)).map fun b =>
          SeedStep.tupleReq ⟨"s", WriteBody.deletes b "ignore", "m"⟩) ++
        ((batcherize 100 [[("user", "b")]]).map fun b =>
          SeedStep.tupleReq ⟨"s", WriteBody.writes b "ignore", "m"⟩))) ∧
    (batcherize 100 (([⟨[("user", "a")]⟩] : List ReadTuple).map fun t =>
      t.key)).flatten = ([⟨[("user", "a")]⟩] : List ReadTuple).map (fun t => t.key) ∧
    (batcherize 100 [[("user", "b")]]).flatten = [[("user", "b")]] :=
  c5_ensure_seed "s" "m" (by decide) (by decide) [⟨[("user", "a")]⟩]
    [[("user", "b")]] (by decide) (by decide)
